import Mathlib

/-!
Verification of the WiringPi `gpio` command-line utility (src/gpio/gpio.c).

This file shallowly embeds the argument-parsing and sysfs-handling logic of
`gpio.c` as executable Lean definitions and proves (or refutes) the frozen
claims about it.  Side effects (file writes, library calls, `exit`) are
modelled as explicit event traces; machine `int` values are modelled as `Int`
(no arithmetic here ever approaches overflow); C strings are Lean `String`s.
-/

namespace Gpio

/-- ASCII lower-casing of a single character, as C `tolower` behaves in the
default locale on the byte values used here: `A`..`Z` map to `a`..`z`,
everything else is unchanged. -/
def asciiLower (c : Char) : Char :=
  if 'A' ≤ c ∧ c ≤ 'Z' then Char.ofNat (c.toNat + 32) else c

/-- ASCII lower-casing of a string, character by character. -/
def lowerStr (s : String) : String :=
  String.mk (s.data.map asciiLower)

/-- `strcasecmp a b == 0`: case-insensitive string equality, as used all over
`gpio.c` for command and mode tokens. -/
def ciEq (a b : String) : Bool :=
  lowerStr a == lowerStr b

/-- C `isspace` in the default locale (the characters `atoi` skips). -/
def isSpaceC (c : Char) : Bool :=
  c = ' ' ∨ c = '\t' ∨ c = '\n' ∨ c = '\x0b' ∨ c = '\x0c' ∨ c = '\r'

/-- Is the character an ASCII decimal digit. -/
def isDigitC (c : Char) : Bool :=
  '0' ≤ c ∧ c ≤ '9'

/-- Accumulate the leading run of decimal digits of a character list into a
natural number, stopping at the first non-digit (how `atoi` consumes digits). -/
def digitsVal : List Char → Nat → Nat
  | [], acc => acc
  | c :: cs, acc =>
      if isDigitC c then digitsVal cs (acc * 10 + (c.toNat - '0'.toNat)) else acc

/-- The sign-and-digits phase of C `atoi`: an optional single `+`/`-` followed
by a (possibly empty) run of digits; no digits yields 0. -/
def atoiSigned : List Char → Int
  | [] => 0
  | c :: cs =>
      if c = '-' then -(digitsVal cs 0 : Int)
      else if c = '+' then (digitsVal cs 0 : Int)
      else (digitsVal (c :: cs) 0 : Int)

/-- Skip the leading whitespace that C `atoi` ignores. -/
def skipSpaces : List Char → List Char
  | [] => []
  | c :: cs => if isSpaceC c then skipSpaces cs else c :: cs

/-- C `atoi`: skip leading whitespace, read an optional sign, then the longest
leading digit run; anything after the digits is ignored; no digits gives 0.
(Overflow cannot occur for the short arguments considered here.) -/
def atoi (s : String) : Int :=
  atoiSigned (skipSpaces s.data)

example : atoi "17" = 17 := by decide
example : atoi "-1" = -1 := by decide
example : atoi "abc" = 0 := by decide
example : atoi "  +42x" = 42 := by decide
example : ciEq "NONE" "none" = true := by decide
example : ciEq "-V" "-v" = true := by decide
example : ciEq "foo" "none" = false := by decide

/-- Externally visible effects of one command-handler run, in program order:
sysfs/device file writes (`fprintf` to a freshly opened file), `chown` calls,
`stderr` messages, `stdout` messages, hardware-library calls (function name
with its integer arguments), `system` invocations (the executable path found —
`none` when `findExecutable` returned NULL — and the rest of the command
line), and `sleep` calls. -/
inductive Ev where
  | write  (file : String) (content : String)
  | chown  (file : String)
  | eprint (msg : String)
  | print  (msg : String)
  | call   (fn : String) (args : List Int)
  | system (path : Option String) (rest : String)
  | sleepSec (n : Nat)
  deriving DecidableEq, Repr

/-- Result of one handler run: its event trace and the process exit code
(1 for every error path, 0 when the handler falls through and main returns). -/
structure CmdResult where
  events : List Ev
  exitCode : Nat
  deriving DecidableEq, Repr

/-- The sysfs export control file. -/
def exportFile : String := "/sys/class/gpio/export"

/-- The sysfs unexport control file. -/
def unexportFile : String := "/sys/class/gpio/unexport"

/-- A per-pin sysfs attribute file, `"/sys/class/gpio/gpio%d/" ++ attr`. -/
def gpioAttr (pin : Int) (attr : String) : String :=
  "/sys/class/gpio/gpio" ++ toString pin ++ "/" ++ attr

/-- Replay the file writes of a trace onto a file-system state (sysfs
attribute writes replace the attribute's content); events other than writes
do not change file contents. -/
def applyEvents (fs : String → Option String) : List Ev → String → Option String
  | [], f => fs f
  | Ev.write g c :: rest, f => applyEvents (fun x => if x = g then some c else fs x) rest f
  | _ :: rest, f => applyEvents fs rest f

lemma length_gpioAttr (pin : Int) (attr : String) :
    (gpioAttr pin attr).length = 21 + (toString pin).length + attr.length := by
  simp [gpioAttr, String.length_append]
  have h : ("/sys/class/gpio/gpio" : String).length = 20 := by decide
  have h2 : ("/" : String).length = 1 := by decide
  omega

lemma direction_ne_edge (pin : Int) : gpioAttr pin "direction" ≠ gpioAttr pin "edge" := by
  intro h
  have := congrArg String.length h
  rw [length_gpioAttr, length_gpioAttr] at this
  have h9 : ("direction" : String).length = 9 := by decide
  have h4 : ("edge" : String).length = 4 := by decide
  omega

lemma exportFile_ne_direction (pin : Int) : exportFile ≠ gpioAttr pin "direction" := by
  intro h
  have := congrArg String.length h
  rw [length_gpioAttr] at this
  have h22 : (exportFile).length = 22 := by decide
  have h9 : ("direction" : String).length = 9 := by decide
  omega

lemma exportFile_ne_edge (pin : Int) : exportFile ≠ gpioAttr pin "edge" := by
  intro h
  have := congrArg String.length h
  rw [length_gpioAttr] at this
  have h22 : (exportFile).length = 22 := by decide
  have h4 : ("edge" : String).length = 4 := by decide
  omega

/-- The edge-token selection chain of `doEdge` (gpio.c lines 643-651):
`strcasecmp` against the four tokens, in source order; the matching branch
writes the canonical lower-case token (plus newline) to the `edge` attribute,
the final `else` is the usage-error path. -/
def edgeToken (mode : String) : Option String :=
  if ciEq mode "none" then some "none"
  else if ciEq mode "rising" then some "rising"
  else if ciEq mode "falling" then some "falling"
  else if ciEq mode "both" then some "both"
  else none

/-- `doEdge` (gpio.c lines 600-661).  `openOk` says which `fopen` calls
succeed (a failed open is the corresponding error exit).  In source order:
argument-count check; `pin = atoi(argv[2])`; write the pin number to the
export control file; write `"in\n"` to the pin's `direction` attribute; match
the mode token and write the canonical edge token, or error out; finally
`chown` the `value` and `edge` attributes.  Error messages elide the
`argv[0]`/`strerror` formatting of the source. -/
def doEdge (openOk : String → Bool) (argv : List String) : CmdResult :=
  if argv.length ≠ 4 then
    ⟨[Ev.eprint "Usage: gpio edge pin mode"], 1⟩
  else
    let pin := atoi (argv.getD 2 "")
    let mode := argv.getD 3 ""
    if !openOk exportFile then
      ⟨[Ev.eprint "Unable to open GPIO export interface"], 1⟩
    else
      let e1 := [Ev.write exportFile (toString pin ++ "\n")]
      if !openOk (gpioAttr pin "direction") then
        ⟨e1 ++ [Ev.eprint "Unable to open GPIO direction interface"], 1⟩
      else
        let e2 := e1 ++ [Ev.write (gpioAttr pin "direction") "in\n"]
        if !openOk (gpioAttr pin "edge") then
          ⟨e2 ++ [Ev.eprint "Unable to open GPIO edge interface"], 1⟩
        else
          match edgeToken mode with
          | some tok =>
              ⟨e2 ++ [Ev.write (gpioAttr pin "edge") (tok ++ "\n"),
                      Ev.chown (gpioAttr pin "value"),
                      Ev.chown (gpioAttr pin "edge")], 0⟩
          | none =>
              ⟨e2 ++ [Ev.eprint ("Invalid mode: " ++ mode ++ ". Should be none, rising, falling or both")], 1⟩

/-- The direction-token selection chain of `doExport` (gpio.c lines 469-481):
`strcasecmp` aliases `in|input`, `out|output`, `high|up`, `low|down`, each
branch writing the canonical token plus newline; the final `else` is the
usage-error path. -/
def exportDirContent (mode : String) : Option String :=
  if ciEq mode "in" || ciEq mode "input" then some "in\n"
  else if ciEq mode "out" || ciEq mode "output" then some "out\n"
  else if ciEq mode "high" || ciEq mode "up" then some "high\n"
  else if ciEq mode "low" || ciEq mode "down" then some "low\n"
  else none

/-- `doExport` (gpio.c lines 436-492).  In source order: argument-count
check; `pin = atoi(argv[2])`; write the pin number to the export control
file; open the `direction` attribute and write the alias-resolved direction
token, or error out on an unknown mode; then `chown` the `value` and `edge`
attributes. -/
def doExport (openOk : String → Bool) (argv : List String) : CmdResult :=
  if argv.length ≠ 4 then
    ⟨[Ev.eprint "Usage: gpio export pin mode"], 1⟩
  else
    let pin := atoi (argv.getD 2 "")
    let mode := argv.getD 3 ""
    if !openOk exportFile then
      ⟨[Ev.eprint "Unable to open GPIO export interface"], 1⟩
    else
      let e1 := [Ev.write exportFile (toString pin ++ "\n")]
      if !openOk (gpioAttr pin "direction") then
        ⟨e1 ++ [Ev.eprint "Unable to open GPIO direction interface"], 1⟩
      else
        match exportDirContent mode with
        | some c =>
            ⟨e1 ++ [Ev.write (gpioAttr pin "direction") c,
                    Ev.chown (gpioAttr pin "value"),
                    Ev.chown (gpioAttr pin "edge")], 0⟩
        | none =>
            ⟨e1 ++ [Ev.eprint ("Invalid mode: " ++ mode ++ ". Should be in, out, high or low")], 1⟩

/-- The four edge tokens, as the lower-case forms the `strcasecmp` chain of
`doEdge` accepts. -/
def edgeTokens : List String := ["none", "rising", "falling", "both"]

lemma edgeToken_of_mem {mode : String} (h : lowerStr mode ∈ edgeTokens) :
    edgeToken mode = some (lowerStr mode) := by
  have hn : lowerStr "none" = "none" := by decide
  have hr : lowerStr "rising" = "rising" := by decide
  have hf : lowerStr "falling" = "falling" := by decide
  have hb : lowerStr "both" = "both" := by decide
  simp only [edgeTokens, List.mem_cons, List.not_mem_nil, or_false] at h
  rcases h with h | h | h | h <;>
    simp [edgeToken, ciEq, hn, hr, hf, hb, h]

lemma edgeToken_of_not_mem {mode : String} (h : lowerStr mode ∉ edgeTokens) :
    edgeToken mode = none := by
  have hn : lowerStr "none" = "none" := by decide
  have hr : lowerStr "rising" = "rising" := by decide
  have hf : lowerStr "falling" = "falling" := by decide
  have hb : lowerStr "both" = "both" := by decide
  simp only [edgeTokens, List.mem_cons, List.not_mem_nil, or_false, not_or] at h
  obtain ⟨h1, h2, h3, h4⟩ := h
  simp [edgeToken, ciEq, hn, hr, hf, hb, h1, h2, h3, h4]

/-- C6: for every pin and every valid edge mode, a successful
edge(pin, mode) run exits 0 having written, in order: the pin number to the
export control file (re-export), then "in\n" to the pin's direction
attribute, then the edge token — so the direction write precedes the edge
write, and replaying the trace over any prior file-system state leaves the
direction attribute equal to "in" (with the sysfs trailing newline),
regardless of any prior direction. -/
theorem edge_forces_direction_in
    (openOk : String → Bool) (prog pinStr mode : String)
    (hopen : ∀ f, openOk f = true)
    (hmode : lowerStr mode ∈ edgeTokens) :
    (doEdge openOk [prog, "edge", pinStr, mode]).exitCode = 0 ∧
    (doEdge openOk [prog, "edge", pinStr, mode]).events =
      [Ev.write exportFile (toString (atoi pinStr) ++ "\n"),
       Ev.write (gpioAttr (atoi pinStr) "direction") "in\n",
       Ev.write (gpioAttr (atoi pinStr) "edge") (lowerStr mode ++ "\n"),
       Ev.chown (gpioAttr (atoi pinStr) "value"),
       Ev.chown (gpioAttr (atoi pinStr) "edge")] ∧
    ∀ fs, applyEvents fs (doEdge openOk [prog, "edge", pinStr, mode]).events
        (gpioAttr (atoi pinStr) "direction") = some "in\n" := by
  have hev : (doEdge openOk [prog, "edge", pinStr, mode]).events =
      [Ev.write exportFile (toString (atoi pinStr) ++ "\n"),
       Ev.write (gpioAttr (atoi pinStr) "direction") "in\n",
       Ev.write (gpioAttr (atoi pinStr) "edge") (lowerStr mode ++ "\n"),
       Ev.chown (gpioAttr (atoi pinStr) "value"),
       Ev.chown (gpioAttr (atoi pinStr) "edge")] := by
    simp [doEdge, hopen, edgeToken_of_mem hmode]
  refine ⟨?_, hev, ?_⟩
  · simp [doEdge, hopen, edgeToken_of_mem hmode]
  · intro fs
    rw [hev]
    simp [applyEvents, direction_ne_edge (atoi pinStr)]

/-- Witness for the C6 theorem at pin 7 and mode "RISING" over the empty
file system. -/
theorem edge_forces_direction_in_witness :
    (doEdge (fun _ => true) ["gpio", "edge", "7", "RISING"]).exitCode = 0 ∧
    applyEvents (fun _ => none)
      (doEdge (fun _ => true) ["gpio", "edge", "7", "RISING"]).events
      (gpioAttr (atoi "7") "direction") = some "in\n" := by
  have h := edge_forces_direction_in (fun _ => true) "gpio" "7" "RISING"
    (fun _ => rfl) (by decide)
  exact ⟨h.1, h.2.2 (fun _ => none)⟩

/-- C2 counterexample: the mode token "NONE" is outside the exact
case-sensitive set {none, rising, falling, both}, yet the edge command
accepts it: the run exits 0 (not 1) and performs file writes (the export,
direction and edge writes), refuting both the case-sensitivity and the
no-file-write parts of the claim. -/
theorem edge_mode_case_sensitivity_counterexample :
    (doEdge (fun _ => true) ["gpio", "edge", "7", "NONE"]).exitCode = 0 ∧
    (doEdge (fun _ => true) ["gpio", "edge", "7", "NONE"]).events =
      [Ev.write exportFile "7\n",
       Ev.write (gpioAttr 7 "direction") "in\n",
       Ev.write (gpioAttr 7 "edge") "none\n",
       Ev.chown (gpioAttr 7 "value"),
       Ev.chown (gpioAttr 7 "edge")] := by
  constructor <;> decide

/-- C2 (amended): the edge-mode token is matched case-insensitively against
{none, rising, falling, both}; a token outside this set (case-insensitively)
is rejected with exit code 1 and no write to the edge attribute occurs —
though the export and direction writes have already happened by then. -/
theorem edge_mode_rejection
    (openOk : String → Bool) (prog pinStr mode : String)
    (hopen : ∀ f, openOk f = true) :
    (lowerStr mode ∈ edgeTokens →
      (doEdge openOk [prog, "edge", pinStr, mode]).exitCode = 0) ∧
    (lowerStr mode ∉ edgeTokens →
      (doEdge openOk [prog, "edge", pinStr, mode]).exitCode = 1 ∧
      (∀ c, Ev.write (gpioAttr (atoi pinStr) "edge") c ∉
        (doEdge openOk [prog, "edge", pinStr, mode]).events) ∧
      Ev.write exportFile (toString (atoi pinStr) ++ "\n") ∈
        (doEdge openOk [prog, "edge", pinStr, mode]).events ∧
      Ev.write (gpioAttr (atoi pinStr) "direction") "in\n" ∈
        (doEdge openOk [prog, "edge", pinStr, mode]).events) := by
  constructor
  · intro hmode
    simp [doEdge, hopen, edgeToken_of_mem hmode]
  · intro hmode
    have hev : (doEdge openOk [prog, "edge", pinStr, mode]).events =
        [Ev.write exportFile (toString (atoi pinStr) ++ "\n"),
         Ev.write (gpioAttr (atoi pinStr) "direction") "in\n",
         Ev.eprint ("Invalid mode: " ++ mode ++ ". Should be none, rising, falling or both")] := by
      simp [doEdge, hopen, edgeToken_of_not_mem hmode]
    refine ⟨?_, ?_, ?_, ?_⟩
    · simp [doEdge, hopen, edgeToken_of_not_mem hmode]
    · intro c
      rw [hev]
      simp [(exportFile_ne_edge (atoi pinStr)).symm,
            (direction_ne_edge (atoi pinStr)).symm]
    · rw [hev]; simp
    · rw [hev]; simp

/-- Witness for the C2 amended theorem: "BOTH" (accepted, exit 0) and "foo"
(rejected, exit 1). -/
theorem edge_mode_rejection_witness :
    (doEdge (fun _ => true) ["gpio", "edge", "7", "BOTH"]).exitCode = 0 ∧
    (doEdge (fun _ => true) ["gpio", "edge", "7", "foo"]).exitCode = 1 := by
  refine ⟨?_, ?_⟩
  · exact (edge_mode_rejection (fun _ => true) "gpio" "7" "BOTH" (fun _ => rfl)).1
      (by decide)
  · exact ((edge_mode_rejection (fun _ => true) "gpio" "7" "foo" (fun _ => rfl)).2
      (by decide)).1

/-- The eight direction aliases accepted by doExport, lower-cased. -/
def exportAliases : List String :=
  ["in", "input", "out", "output", "high", "up", "low", "down"]

lemma exportDirContent_of_not_mem {mode : String}
    (h : lowerStr mode ∉ exportAliases) : exportDirContent mode = none := by
  have e1 : lowerStr "in" = "in" := by decide
  have e2 : lowerStr "input" = "input" := by decide
  have e3 : lowerStr "out" = "out" := by decide
  have e4 : lowerStr "output" = "output" := by decide
  have e5 : lowerStr "high" = "high" := by decide
  have e6 : lowerStr "up" = "up" := by decide
  have e7 : lowerStr "low" = "low" := by decide
  have e8 : lowerStr "down" = "down" := by decide
  simp only [exportAliases, List.mem_cons, List.not_mem_nil, or_false, not_or] at h
  obtain ⟨h1, h2, h3, h4, h5, h6, h7, h8⟩ := h
  simp [exportDirContent, ciEq, e1, e2, e3, e4, e5, e6, e7, e8,
        h1, h2, h3, h4, h5, h6, h7, h8]

/-- C7: the two members of each doExport direction-alias pair — in/input,
out/output, high/up, low/down, matched case-insensitively — produce
identical direction-file content ("in\n", "out\n", "high\n", "low\n"
respectively), and a mode string outside these eight aliases is rejected
with exit code 1 with no write to the direction attribute. -/
theorem export_alias_pairs (mode : String) :
    ((lowerStr mode = "in" ∨ lowerStr mode = "input") ↔
      exportDirContent mode = some "in\n") ∧
    ((lowerStr mode = "out" ∨ lowerStr mode = "output") ↔
      exportDirContent mode = some "out\n") ∧
    ((lowerStr mode = "high" ∨ lowerStr mode = "up") ↔
      exportDirContent mode = some "high\n") ∧
    ((lowerStr mode = "low" ∨ lowerStr mode = "down") ↔
      exportDirContent mode = some "low\n") ∧
    (exportDirContent mode = none ↔ lowerStr mode ∉ exportAliases) ∧
    (∀ openOk prog pinStr, (∀ f, openOk f = true) →
      lowerStr mode ∉ exportAliases →
      (doExport openOk [prog, "export", pinStr, mode]).exitCode = 1 ∧
      ∀ c, Ev.write (gpioAttr (atoi pinStr) "direction") c ∉
        (doExport openOk [prog, "export", pinStr, mode]).events) := by
  have e1 : lowerStr "in" = "in" := by decide
  have e2 : lowerStr "input" = "input" := by decide
  have e3 : lowerStr "out" = "out" := by decide
  have e4 : lowerStr "output" = "output" := by decide
  have e5 : lowerStr "high" = "high" := by decide
  have e6 : lowerStr "up" = "up" := by decide
  have e7 : lowerStr "low" = "low" := by decide
  have e8 : lowerStr "down" = "down" := by decide
  have hreject : ∀ openOk prog pinStr, (∀ f, openOk f = true) →
      lowerStr mode ∉ exportAliases →
      (doExport openOk [prog, "export", pinStr, mode]).exitCode = 1 ∧
      ∀ c, Ev.write (gpioAttr (atoi pinStr) "direction") c ∉
        (doExport openOk [prog, "export", pinStr, mode]).events := by
    intro openOk prog pinStr hopen hmem
    have hedc := exportDirContent_of_not_mem hmem
    have hev : (doExport openOk [prog, "export", pinStr, mode]).events =
        [Ev.write exportFile (toString (atoi pinStr) ++ "\n"),
         Ev.eprint ("Invalid mode: " ++ mode ++ ". Should be in, out, high or low")] := by
      simp [doExport, hopen, hedc]
    refine ⟨by simp [doExport, hopen, hedc], ?_⟩
    intro c
    rw [hev]
    simp [(exportFile_ne_direction (atoi pinStr)).symm]
  by_cases hmem : lowerStr mode ∈ exportAliases
  · simp only [exportAliases, List.mem_cons, List.not_mem_nil, or_false] at hmem
    rcases hmem with h | h | h | h | h | h | h | h <;>
      refine ⟨?_, ?_, ?_, ?_, ?_, hreject⟩ <;>
        simp [exportDirContent, ciEq, e1, e2, e3, e4, e5, e6, e7, e8, h, exportAliases]
  · have hedc := exportDirContent_of_not_mem hmem
    have hne := hmem
    simp only [exportAliases, List.mem_cons, List.not_mem_nil, or_false, not_or] at hne
    obtain ⟨h1, h2, h3, h4, h5, h6, h7, h8⟩ := hne
    refine ⟨?_, ?_, ?_, ?_, ?_, hreject⟩ <;>
      simp [hedc, h1, h2, h3, h4, h5, h6, h7, h8, hmem]

/-- Witness for the C7 theorem: "INPUT" and "in" produce the same direction
content, and the unknown mode "float" is rejected with exit code 1. -/
theorem export_alias_pairs_witness :
    exportDirContent "INPUT" = some "in\n" ∧
    exportDirContent "in" = some "in\n" ∧
    (doExport (fun _ => true) ["gpio", "export", "7", "float"]).exitCode = 1 := by
  refine ⟨?_, ?_, ?_⟩
  · exact (export_alias_pairs "INPUT").1.mp (by decide)
  · exact (export_alias_pairs "in").1.mp (by decide)
  · exact ((export_alias_pairs "float").2.2.2.2.2 (fun _ => true) "gpio" "7"
      (fun _ => rfl) (by decide)).1

/-- An uppercase hexadecimal digit. -/
def hexDigit (n : Nat) : Char := "0123456789ABCDEF".data.getD n '0'

/-- printf "0x%08X" formatting of the 32-bit bank value. -/
def hex8 (n : Nat) : String :=
  "0x" ++ String.mk (((List.range 8).reverse).map (fun i => hexDigit (n / 16 ^ i % 16)))

/-- doBank (gpio.c lines 989-1011).  In source order: argument-count check;
bank = atoi(argv[2]); the guard rejects bank > 1 ("Bad bank number. Must be
0 or 1.") with exit 1; otherwise digitalReadBank(bank) is called (modelled by
readBank for the returned value plus a call event) and the value printed in
0x%08X format. -/
def doBank (readBank : Int → Nat) (argv : List String) : CmdResult :=
  if argv.length ≠ 3 then
    ⟨[Ev.eprint "Usage: gpio bank bank#"], 1⟩
  else
    let bank := atoi (argv.getD 2 "")
    if bank > 1 then
      ⟨[Ev.eprint "Bad bank number. Must be 0 or 1.",
        Ev.eprint "Usage: gpio bank bank#"], 1⟩
    else
      ⟨[Ev.call "digitalReadBank" [bank],
        Ev.print (hex8 (readBank bank))], 0⟩

/-- C4 counterexample: the bank argument "-1" is an integer outside {0,1},
yet doBank does not reject it: the guard only tests bank > 1, so the run
exits 0 and digitalReadBank is called with -1. -/
theorem bank_negative_counterexample :
    (doBank (fun _ => 0) ["gpio", "bank", "-1"]).exitCode = 0 ∧
    Ev.call "digitalReadBank" [-1] ∈ (doBank (fun _ => 0) ["gpio", "bank", "-1"]).events := by
  constructor <;> decide

/-- C4 (amended): the doBank guard is bank > 1 only: every bank argument
whose atoi value exceeds 1 (in particular 2) prints an error and exits 1
without calling digitalReadBank, while every value ≤ 1 — including negative
banks — is passed to digitalReadBank. -/
theorem bank_guard (readBank : Int → Nat) (prog bankStr : String) :
    (1 < atoi bankStr →
      (doBank readBank [prog, "bank", bankStr]).exitCode = 1 ∧
      ∀ fn args, Ev.call fn args ∉ (doBank readBank [prog, "bank", bankStr]).events) ∧
    (atoi bankStr ≤ 1 →
      (doBank readBank [prog, "bank", bankStr]).exitCode = 0 ∧
      Ev.call "digitalReadBank" [atoi bankStr] ∈
        (doBank readBank [prog, "bank", bankStr]).events) := by
  constructor
  · intro h
    constructor
    · simp [doBank, h]
    · intro fn args
      simp [doBank, h]
  · intro h
    constructor
    · simp [doBank, Int.not_lt.mpr h]
    · simp [doBank, Int.not_lt.mpr h]

/-- Witness for the C4 amended theorem: bank 2 is rejected with exit 1 and
bank 0 is read. -/
theorem bank_guard_witness :
    (doBank (fun _ => 0) ["gpio", "bank", "2"]).exitCode = 1 ∧
    (doBank (fun _ => 0) ["gpio", "bank", "0"]).exitCode = 0 := by
  refine ⟨?_, ?_⟩
  · exact ((bank_guard (fun _ => 0) "gpio" "2").1 (by decide)).1
  · exact ((bank_guard (fun _ => 0) "gpio" "0").2 (by decide)).1

/-- The value-token resolution of doWrite (gpio.c lines 879-884):
"up"/"on" (strcasecmp) give 1, "down"/"off" give 0, anything else is
atoi(argv[3]). -/
def writeVal (s : String) : Int :=
  if ciEq s "up" || ciEq s "on" then 1
  else if ciEq s "down" || ciEq s "off" then 0
  else atoi s

/-- doWrite (gpio.c lines 867-890).  Argument-count check, pin =
atoi(argv[2]), value resolution by writeVal, then digitalWrite(pin, LOW)
when the value is 0 and digitalWrite(pin, HIGH) otherwise (LOW = 0,
HIGH = 1). -/
def doWrite (argv : List String) : CmdResult :=
  if argv.length ≠ 4 then
    ⟨[Ev.eprint "Usage: gpio write pin value"], 1⟩
  else
    let pin := atoi (argv.getD 2 "")
    let v := writeVal (argv.getD 3 "")
    if v = 0 then ⟨[Ev.call "digitalWrite" [pin, 0]], 0⟩
    else ⟨[Ev.call "digitalWrite" [pin, 1]], 0⟩

/-- C10: doWrite writes HIGH exactly for the value strings up/on
(case-insensitively) and for any other string whose atoi conversion is
nonzero; in every case the run exits 0 and performs exactly one
digitalWrite — so the non-numeric string "abc" (atoi 0) silently writes LOW
rather than being rejected. -/
theorem write_value_resolution (prog pinStr s : String) :
    (doWrite [prog, "write", pinStr, s]).exitCode = 0 ∧
    ((doWrite [prog, "write", pinStr, s]).events =
        [Ev.call "digitalWrite" [atoi pinStr, 1]] ↔
      (lowerStr s = "up" ∨ lowerStr s = "on") ∨
      ((lowerStr s ≠ "down" ∧ lowerStr s ≠ "off") ∧ atoi s ≠ 0)) ∧
    ((doWrite [prog, "write", pinStr, s]).events =
        [Ev.call "digitalWrite" [atoi pinStr, 0]] ↔
      ¬ ((lowerStr s = "up" ∨ lowerStr s = "on") ∨
        ((lowerStr s ≠ "down" ∧ lowerStr s ≠ "off") ∧ atoi s ≠ 0))) ∧
    doWrite ["gpio", "write", "7", "abc"] =
      ⟨[Ev.call "digitalWrite" [7, 0]], 0⟩ := by
  have hup : lowerStr "up" = "up" := by decide
  have hon : lowerStr "on" = "on" := by decide
  have hdn : lowerStr "down" = "down" := by decide
  have hoff : lowerStr "off" = "off" := by decide
  have habc : doWrite ["gpio", "write", "7", "abc"] =
      ⟨[Ev.call "digitalWrite" [7, 0]], 0⟩ := by decide
  have hv : writeVal s =
      (if lowerStr s = "up" ∨ lowerStr s = "on" then 1
       else if lowerStr s = "down" ∨ lowerStr s = "off" then 0
       else atoi s) := by
    simp [writeVal, ciEq, hup, hon, hdn, hoff]
  have hkey : writeVal s = 0 ↔
      ¬((lowerStr s = "up" ∨ lowerStr s = "on") ∨
        ((lowerStr s ≠ "down" ∧ lowerStr s ≠ "off") ∧ atoi s ≠ 0)) := by
    rw [hv]
    by_cases h1 : lowerStr s = "up" ∨ lowerStr s = "on"
    · rw [if_pos h1]
      simp
      tauto
    · rw [if_neg h1]
      by_cases h2 : lowerStr s = "down" ∨ lowerStr s = "off"
      · rw [if_pos h2]
        simp
        tauto
      · rw [if_neg h2]
        push_neg at h2
        constructor
        · intro h0 hx
          rcases hx with hx | hx
          · exact h1 hx
          · exact hx.2 h0
        · intro hx
          by_contra h0
          exact hx (Or.inr ⟨h2, h0⟩)
  by_cases h0 : writeVal s = 0
  · have hres : doWrite [prog, "write", pinStr, s] =
        ⟨[Ev.call "digitalWrite" [atoi pinStr, 0]], 0⟩ := by
      simp [doWrite, h0]
    rw [hres]
    refine ⟨rfl, ?_, ?_, habc⟩
    · constructor
      · intro heq
        simp at heq
      · intro hx
        exact (hkey.mp h0 hx).elim
    · constructor
      · intro _
        exact hkey.mp h0
      · intro _
        rfl
  · have hres : doWrite [prog, "write", pinStr, s] =
        ⟨[Ev.call "digitalWrite" [atoi pinStr, 1]], 0⟩ := by
      simp [doWrite, h0]
    have hP : (lowerStr s = "up" ∨ lowerStr s = "on") ∨
        ((lowerStr s ≠ "down" ∧ lowerStr s ≠ "off") ∧ atoi s ≠ 0) := by
      by_contra hp
      exact h0 (hkey.mpr hp)
    rw [hres]
    refine ⟨rfl, ?_, ?_, habc⟩
    · constructor
      · intro _
        exact hP
      · intro _
        rfl
    · constructor
      · intro heq
        simp at heq
      · intro hx
        exact (hx hP).elim

/-- One attribute read-and-render step of the doExports listing (gpio.c
lines 380-387, repeated at 399-406 and 416-423), for a read that returned
the byte list bytes (so l = bytes.length).  In source order: when l = 0 a
sprintf puts "?" into the buffer; then the unconditional buf[l] = 0 cuts the
C string at index l — for l = 0 this lands on index 0 and erases the "?"
just written; then one trailing newline is stripped (the C code reads
buf[strlen(buf)-1], which for the empty string inspects the byte before the
buffer without changing the rendered characters, so the guard is modelled on
the last character of the string).  The returned string is what the
subsequent printf renders. -/
def renderAttr (bytes : List Char) : String :=
  let buf : List Char := if bytes.length = 0 then ['?'] else bytes
  let buf2 : List Char := buf.take bytes.length
  if buf2.getLast? = some '\n' then String.mk buf2.dropLast else String.mk buf2

/-- C5: the newline-stripping half of the claim holds (a trailing newline in
a nonempty read is stripped before printing), but the zero-byte half fails:
a read that returns zero bytes is rendered as the empty string, not as the
placeholder "?", because the NUL terminator written at buf[l] with l = 0
overwrites the "?" that the sprintf just stored. -/
theorem exports_render_attr :
    renderAttr "in\n".data = "in" ∧
    renderAttr "0\n".data = "0" ∧
    renderAttr "falling\n".data = "falling" ∧
    renderAttr [] = "" ∧
    renderAttr [] ≠ "?" := by
  refine ⟨?_, ?_, ?_, ?_, ?_⟩ <;> decide

/-- The fixed executable search list of findExecutable (gpio.c lines
96-105), scanned in order; the inherited $PATH is never consulted. -/
def searchPath : List String :=
  ["/sbin", "/usr/sbin", "/bin", "/usr/bin", "/usr/local/bin", "/usr/local/sbin"]

/-- findExecutable (gpio.c lines 107-125): the first directory of the fixed
search list in which dir/progName stats successfully, or none when no
directory has it. -/
def findExecutable (execExists : String → Bool) (progName : String) : Option String :=
  (searchPath.map (fun d => d ++ "/" ++ progName)).find? execExists

/-- Environment a doLoad run observes: whether /proc/device-tree exists,
which executable paths stat successfully, which modules /proc/modules lists
at the pre-load checks (gpio.c lines 251 and 257), and which it lists at the
post-load re-check (line 263, after the system() calls may have loaded
modules). -/
structure LoadEnv where
  devtree : Bool
  execExists : String → Bool
  loadedBefore : String → Bool
  loadedAfter : String → Bool

/-- The load sequence shared by the spi and i2c branches of doLoad (gpio.c
lines 248-272).  In source order: if findExecutable finds no modprobe, a
bare printf "No found\n" goes to stdout and execution continues; each module
not already loaded is loaded via system(modprobe module args); if the second
module is still not loaded afterwards the run is fatal (exit 1); otherwise
sleep(1) and chown the two device files. -/
def loadSeq (env : LoadEnv) (m1 m2 a1 a2 f1 f2 : String) : CmdResult :=
  let e0 : List Ev :=
    if findExecutable env.execExists "modprobe" = none then [Ev.print "No found\n"] else []
  let e1 : List Ev :=
    if !env.loadedBefore m1 then
      [Ev.system (findExecutable env.execExists "modprobe") (m1 ++ a1)] else []
  let e2 : List Ev :=
    if !env.loadedBefore m2 then
      [Ev.system (findExecutable env.execExists "modprobe") (m2 ++ a2)] else []
  if !env.loadedAfter m2 then
    ⟨e0 ++ e1 ++ e2 ++ [Ev.eprint ("Unable to load " ++ m2)], 1⟩
  else
    ⟨e0 ++ e1 ++ e2 ++ [Ev.sleepSec 1, Ev.chown f1, Ev.chown f2], 0⟩

/-- doLoad (gpio.c lines 206-273).  checkDevTree refuses to run on a
device-tree system; then the argument count and the spi/i2c selector
(strcasecmp) choose the module pair, device files and modprobe arguments
(spi with a 4th argument is its own fatal error; i2c's 4th argument becomes
a baudrate parameter); then the load sequence runs. -/
def doLoad (env : LoadEnv) (argv : List String) : CmdResult :=
  if env.devtree then
    ⟨[Ev.eprint "Unable to load/unload modules as this Pi has the device tree enabled."], 1⟩
  else if argv.length < 3 then
    ⟨[Ev.eprint "Usage: gpio load spi/i2c"], 1⟩
  else if ciEq (argv.getD 2 "") "spi" then
    if argv.length = 4 then
      ⟨[Ev.eprint "Unable to set the buffer size now. Load aborted. Please see the man page."], 1⟩
    else if argv.length > 4 then
      ⟨[Ev.eprint "Usage: gpio load spi/i2c"], 1⟩
    else
      loadSeq env "spidev" "spi_bcm2708" "" "" "/dev/spidev0.0" "/dev/spidev0.1"
  else if ciEq (argv.getD 2 "") "i2c" then
    if argv.length > 4 then
      ⟨[Ev.eprint "Usage: gpio load spi/i2c"], 1⟩
    else
      loadSeq env "i2c_dev" "i2c_bcm2708" ""
        (if argv.length = 4 then " baudrate=" ++ toString (atoi (argv.getD 3 "") * 1000) else "")
        "/dev/i2c-0" "/dev/i2c-1"
  else
    ⟨[Ev.eprint "Usage: gpio load spi/i2c"], 1⟩

/-- C3: evaluation of doLoad at the failing input — gpio load spi on a
non-device-tree system where modprobe exists in none of the six fixed search
directories.  The run is not fatal at the missing-executable point: it
prints "No found" on stdout and continues the module-load sequence, issuing
the two system() calls with no executable path (the C code passes the NULL
findExecutable result to sprintf %s), and — the modules having ended up
loaded — finishes the sleep/chown tail and exits 0. -/
theorem load_missing_modprobe_not_fatal :
    doLoad
      ⟨false, fun _ => false, fun _ => false, fun _ => true⟩
      ["gpio", "load", "spi"] =
    ⟨[Ev.print "No found\n",
      Ev.system none "spidev",
      Ev.system none "spi_bcm2708",
      Ev.sleepSec 1,
      Ev.chown "/dev/spidev0.0",
      Ev.chown "/dev/spidev0.1"], 0⟩ := by
  decide

/-- Split a character list at commas (acc is the current token, reversed). -/
def splitCommas : List Char → List Char → List String
  | [], acc => [String.mk acc.reverse]
  | c :: cs, acc =>
      if c = ',' then String.mk acc.reverse :: splitCommas cs []
      else splitCommas cs (c :: acc)

/-- The strtok(argv[2], ",") pin-list parsing loop of doMWfi (gpio.c lines
560-566): strtok yields each maximal nonempty run between commas (leading,
trailing and doubled commas produce no token), and each token goes through
atoi into pinList; n_pins is the length of the resulting list. -/
def parsePins (s : String) : List Int :=
  ((splitCommas s.data []).filter (fun t => t ≠ "")).map atoi

/-- The doMWfi polling loop (gpio.c lines 583-588): nInts is reset to 0 and
the loop re-checks the guard nInts < n_pins every 100ms, with no other exit
and no timeout.  nInts k is the shared counter value the loop observes at
its k-th 100ms guard check: the number of edge events whose wfi callback
(which increments nInts once per observed event, gpio.c line 507) has run by
then.  The loop returns at check k iff the guard fails there for the first
time. -/
def mwfiReturnsAtCheck (nInts : Nat → Nat) (required k : Nat) : Prop :=
  required ≤ nInts k ∧ ∀ j, j < k → nInts j < required

/-- C8: with a comma-separated list of n pins ("4,17,27" parses to three
pins), doMWfi returns at a poll only when the shared interrupt counter has
reached n, i.e. only after n edge events have been observed in any order; at
every earlier poll the counter was below n (it never returns after fewer
than n events); and if the counter never reaches n, no poll ever returns
(there is no timeout). -/
theorem mwfi_returns_after_n_events (s : String) (nInts : Nat → Nat) (k : Nat) :
    parsePins "4,17,27" = [4, 17, 27] ∧
    (mwfiReturnsAtCheck nInts (parsePins s).length k →
      (parsePins s).length ≤ nInts k) ∧
    (mwfiReturnsAtCheck nInts (parsePins s).length k →
      ∀ j, j < k → nInts j < (parsePins s).length) ∧
    ((∀ j, nInts j < (parsePins s).length) →
      ¬ ∃ m, mwfiReturnsAtCheck nInts (parsePins s).length m) := by
  refine ⟨by decide, fun h => h.1, fun h => h.2, ?_⟩
  rintro hlt ⟨m, hm⟩
  exact absurd hm.1 (Nat.not_le.mpr (hlt m))

/-- Witness for the C8 theorem: with the three-pin list "4,17,27" and the
counter that has seen j events by check j, the loop returning at check 3
implies at least three events were observed. -/
theorem mwfi_returns_after_n_events_witness :
    (parsePins "4,17,27").length ≤ 3 :=
  (mwfi_returns_after_n_events "4,17,27" (fun j => j) 3).2.1
    ⟨by decide, fun j hj => hj⟩

/-- ASCII upper-casing of a character (inverse direction of asciiLower). -/
def asciiUpper (c : Char) : Char :=
  if 'a' ≤ c ∧ c ≤ 'z' then Char.ofNat (c.toNat - 32) else c

/-- ASCII upper-casing of a string. -/
def upperStr (s : String) : String :=
  String.mk (s.data.map asciiUpper)

/-- The values of the process-wide numbering-scheme selector wpMode
(wiringPi's WPI_MODE_GPIO / WPI_MODE_PHYS / WPI_MODE_PINS /
WPI_MODE_UNINITIALISED). -/
inductive WpM where
  | gpio | phys | pins | uninitialised
  deriving DecidableEq, Repr

/-- The hardware-initialisation calls main can make before dispatching
(wiringPiSetupGpio / wiringPiSetupPhys / wiringPiSetup). -/
inductive HwOp where
  | setupGpio | setupPhys | setup
  deriving DecidableEq, Repr

/-- Where the dispatcher in main ends up: one of its own short-circuit
exits, or the handler it hands control to. -/
inductive MainOutcome where
  | usageHint
  | helpText
  | versionInfo
  | warrantyText
  | notRoot
  | sysfs (cmd : String)
  | load
  | unload
  | usbp
  | allreadall
  | missingExtension
  | extensionFailed
  | noCommand
  | dispatch (cmd : String)
  | unknown (tok : String)
  deriving DecidableEq, Repr

/-- Result of the dispatcher: the outcome plus, in program order, the
hardware-setup calls made and the successive assignments to wpMode. -/
structure MainResult where
  outcome : MainOutcome
  ops : List HwOp
  wpAssigns : List WpM
  deriving DecidableEq, Repr

/-- Exit code fixed by main itself for its own short-circuit outcomes
(EXIT_SUCCESS / EXIT_FAILURE at gpio.c lines 1300-1490); none for outcomes
where a handler decides the exit code. -/
def outcomeExit : MainOutcome → Option Nat
  | MainOutcome.usageHint => some 1
  | MainOutcome.helpText => some 0
  | MainOutcome.versionInfo => some 0
  | MainOutcome.warrantyText => some 0
  | MainOutcome.notRoot => some 1
  | MainOutcome.missingExtension => some 1
  | MainOutcome.extensionFailed => some 1
  | MainOutcome.noCommand => some 1
  | MainOutcome.unknown _ => some 1
  | _ => none

/-- The in-place one-slot argument shift
for (i = 2; i < argc; ++i) argv[i-1] = argv[i]; --argc;
acting on the tail xs = argv[1..] with effective count n = argc - 1:
positions 1..n-1 move down one slot, the rest of the array (including the
now-duplicated last effective entry) is untouched.  In particular for n = 1
the array is unchanged — the C loop body never runs — so the flag string
stays visible at argv[1] even though argc now excludes it. -/
def shiftArgs (n : Nat) (xs : List String) : List String :=
  (xs.drop 1).take (n - 1) ++ xs.drop (n - 1)

/-- The two-slot shift of the -x consumption loop
(for (i = 3; i < argc; ++i) argv[i-2] = argv[i]; argc -= 2). -/
def shift2Args (n : Nat) (xs : List String) : List String :=
  (xs.drop 2).take (n - 2) ++ xs.drop (n - 2)

/-- strcasecmp match of argv[1] against the five help tokens (gpio.c lines
1304-1310). -/
def helpTok (s : String) : Bool :=
  ciEq s "h" || ciEq s "-h" || ciEq s "-help" || ciEq s "--help" || ciEq s "help"

/-- The sysfs-only commands short-circuited before library initialisation
(gpio.c lines 1351-1355). -/
def sysfsNames : List String :=
  ["exports", "export", "edge", "unexport", "unexportall"]

/-- The core command table of main (gpio.c lines 1454-1485), in source
order; each entry is matched with strcasecmp. -/
def coreTable : List String :=
  ["mode", "read", "bank", "write", "pwm", "awrite", "aread", "toggle",
   "blink", "pwm-bal", "pwm-ms", "pwmr", "pwmc", "pwmTone", "drive",
   "readall", "nreadall", "pins", "qmode", "i2cdetect", "i2cd", "reset",
   "wb", "rbx", "rbd", "clock", "wfi", "mwfi"]

/-- First core-table entry matching the token case-insensitively, mirroring
the strcasecmp if-else chain. -/
def lookupCore (tok : String) : Option String :=
  coreTable.find? (fun c => ciEq tok c)

/-- The numbering-scheme flag section of main (gpio.c lines 1375-1422),
acting on (n, xs) with xs = argv[1..] and n = argc - 1.  It is two
successive conditional chains: the first is
if (-b) ... else if (-p) ...; the second —
note the fresh if in the source, not an else if —
is if (-w) ... else if (-z) ... else default-to-GPIO.
Each flag branch runs its setup call, shifts the arguments, and assigns
wpMode; the default branch runs wiringPiSetupGpio() and assigns
WPI_MODE_GPIO without shifting.  Returns the setup calls and wpMode
assignments in program order plus the updated (n, xs). -/
def numbering (n : Nat) (xs : List String) :
    List HwOp × List WpM × Nat × List String :=
  let a1 := xs.getD 0 ""
  let r1 : List HwOp × List WpM × Nat × List String :=
    if ciEq a1 "-b" then ([HwOp.setupGpio], [WpM.gpio], n - 1, shiftArgs n xs)
    else if ciEq a1 "-p" then ([HwOp.setupPhys], [WpM.phys], n - 1, shiftArgs n xs)
    else ([], [], n, xs)
  let b1 := r1.2.2.2.getD 0 ""
  let r2 : List HwOp × List WpM × Nat × List String :=
    if ciEq b1 "-w" then
      ([HwOp.setup], [WpM.pins], r1.2.2.1 - 1, shiftArgs r1.2.2.1 r1.2.2.2)
    else if ciEq b1 "-z" then
      ([], [WpM.uninitialised], r1.2.2.1 - 1, shiftArgs r1.2.2.1 r1.2.2.2)
    else ([HwOp.setupGpio], [WpM.gpio], r1.2.2.1, r1.2.2.2)
  (r1.1 ++ r2.1, r1.2.1 ++ r2.2.1, r2.2.2.1, r2.2.2.2)

/-- The -x extension-consumption loop of main (gpio.c lines 1427-1445):
while argv[1] is -x (strcasecmp), require argc ≥ 3, load the extension
(extOk says whether loadWPiExtension succeeds; a failure is fatal), and
shift two slots out.  fuel bounds the recursion; any fuel exceeding half the
argument count is enough, since n decreases by 2 per iteration and an
iteration requires n ≥ 2. -/
def xLoop (extOk : Bool) : Nat → Nat → List String →
    Except MainOutcome (Nat × List String)
  | 0, n, xs => Except.ok (n, xs)
  | fuel + 1, n, xs =>
      if ciEq (xs.getD 0 "") "-x" then
        if n < 2 then Except.error MainOutcome.missingExtension
        else if !extOk then Except.error MainOutcome.extensionFailed
        else xLoop extOk fuel (n - 2) (shift2Args n xs)
      else Except.ok (n, xs)

/-- The dispatcher of main (gpio.c lines 1284-1493) from the first argument
on: args is argv[1..], isRoot models geteuid() == 0, extOk whether
loadWPiExtension succeeds.  In source order: empty-argument usage hint; the
five help tokens (strcasecmp); -v (strcmp — the one case-SENSITIVE match);
-warranty (strcasecmp); the privilege check; the five sysfs-only commands;
load/unload; usbp; allreadall (forcing a GPIO-mode setup); the
numbering-scheme flag section; the -x loop; the no-command check
(argc <= 1); and the core command table, whose fall-through is the fatal
unknown-command exit. -/
def mainRun (isRoot extOk : Bool) (args : List String) : MainResult :=
  match args with
  | [] => ⟨MainOutcome.usageHint, [], []⟩
  | a1 :: _ =>
    if helpTok a1 then ⟨MainOutcome.helpText, [], []⟩
    else if a1 = "-v" then ⟨MainOutcome.versionInfo, [], []⟩
    else if ciEq a1 "-warranty" then ⟨MainOutcome.warrantyText, [], []⟩
    else if !isRoot then ⟨MainOutcome.notRoot, [], []⟩
    else if ciEq a1 "exports" then ⟨MainOutcome.sysfs "exports", [], []⟩
    else if ciEq a1 "export" then ⟨MainOutcome.sysfs "export", [], []⟩
    else if ciEq a1 "edge" then ⟨MainOutcome.sysfs "edge", [], []⟩
    else if ciEq a1 "unexport" then ⟨MainOutcome.sysfs "unexport", [], []⟩
    else if ciEq a1 "unexportall" then ⟨MainOutcome.sysfs "unexportall", [], []⟩
    else if ciEq a1 "load" then ⟨MainOutcome.load, [], []⟩
    else if ciEq a1 "unload" then ⟨MainOutcome.unload, [], []⟩
    else if ciEq a1 "usbp" then ⟨MainOutcome.usbp, [], []⟩
    else if ciEq a1 "allreadall" then ⟨MainOutcome.allreadall, [HwOp.setupGpio], []⟩
    else
      let r := numbering args.length args
      match xLoop extOk (r.2.2.1 + 1) r.2.2.1 r.2.2.2 with
      | Except.error o => ⟨o, r.1, r.2.1⟩
      | Except.ok (n2, xs2) =>
        if n2 = 0 then ⟨MainOutcome.noCommand, r.1, r.2.1⟩
        else
          match lookupCore (xs2.getD 0 "") with
          | some c => ⟨MainOutcome.dispatch c, r.1, r.2.1⟩
          | none => ⟨MainOutcome.unknown (xs2.getD 0 ""), r.1, r.2.1⟩

/-- C1: evaluation of the dispatcher on each numbering flag ahead of a read
command.  Because the -w test in main is a fresh if rather than an else if
of the -b / -p chain, the -p run assigns wpMode twice — WPI_MODE_PHYS and
then, in the second chain's default branch, WPI_MODE_GPIO — so its final
wpMode is GPIO, not PHYS, and wiringPiSetupGpio() re-initialises the library
after wiringPiSetupPhys(); the -b run likewise assigns wpMode twice (GPIO
then GPIO again) and runs wiringPiSetupGpio() twice.  Only -w, -z and the
no-flag default assign the selector exactly once with the claimed value. -/
theorem wpmode_flag_assignments :
    mainRun true true ["-p", "read", "7"] =
      ⟨MainOutcome.dispatch "read", [HwOp.setupPhys, HwOp.setupGpio],
       [WpM.phys, WpM.gpio]⟩ ∧
    mainRun true true ["-b", "read", "7"] =
      ⟨MainOutcome.dispatch "read", [HwOp.setupGpio, HwOp.setupGpio],
       [WpM.gpio, WpM.gpio]⟩ ∧
    mainRun true true ["-w", "read", "7"] =
      ⟨MainOutcome.dispatch "read", [HwOp.setup], [WpM.pins]⟩ ∧
    mainRun true true ["-z", "read", "7"] =
      ⟨MainOutcome.dispatch "read", [], [WpM.uninitialised]⟩ ∧
    mainRun true true ["read", "7"] =
      ⟨MainOutcome.dispatch "read", [HwOp.setupGpio], [WpM.gpio]⟩ := by
  refine ⟨?_, ?_, ?_, ?_, ?_⟩ <;> decide

/-- C9: the version flag is the one case-sensitive token: exactly "-v"
(matched with strcmp) prints version information and exits 0, even without
root; "-V" is not recognised — without root it dies at the privilege check,
and as root it falls through every case-insensitive match, through the
default numbering setup, to the fatal unknown-command exit with code 1.
Help tokens are matched case-insensitively for every argument string, and
every sysfs and core-table command name dispatches identically in upper and
lower case. -/
theorem version_flag_case_sensitivity :
    (∀ (isRoot extOk : Bool) (s : String) (rest : List String),
      lowerStr s ∈ ["h", "-h", "-help", "--help", "help"] →
      mainRun isRoot extOk (s :: rest) = ⟨MainOutcome.helpText, [], []⟩) ∧
    mainRun false true ["-v"] = ⟨MainOutcome.versionInfo, [], []⟩ ∧
    mainRun true true ["-v"] = ⟨MainOutcome.versionInfo, [], []⟩ ∧
    mainRun false true ["-V"] = ⟨MainOutcome.notRoot, [], []⟩ ∧
    mainRun true true ["-V"] =
      ⟨MainOutcome.unknown "-V", [HwOp.setupGpio], [WpM.gpio]⟩ ∧
    outcomeExit MainOutcome.versionInfo = some 0 ∧
    outcomeExit (MainOutcome.unknown "-V") = some 1 ∧
    ((sysfsNames ++ coreTable).all (fun c =>
      mainRun true true [upperStr c, "7", "1"] ==
        mainRun true true [c, "7", "1"])) = true := by
  have c1 : lowerStr "h" = "h" := by decide
  have c2 : lowerStr "-h" = "-h" := by decide
  have c3 : lowerStr "-help" = "-help" := by decide
  have c4 : lowerStr "--help" = "--help" := by decide
  have c5 : lowerStr "help" = "help" := by decide
  refine ⟨?_, by decide, by decide, by decide, by decide, by decide, by decide,
    by decide⟩
  intro isRoot extOk s rest hmem
  simp only [List.mem_cons, List.not_mem_nil, or_false] at hmem
  rcases hmem with h | h | h | h | h <;>
    simp [mainRun, helpTok, ciEq, c1, c2, c3, c4, c5, h]

/-- Witness for the C9 theorem: the upper-case help token "HELP" prints the
help text for any privilege level. -/
theorem version_flag_case_sensitivity_witness :
    mainRun false false ["HELP"] = ⟨MainOutcome.helpText, [], []⟩ :=
  version_flag_case_sensitivity.1 false false "HELP" [] (by decide)

end Gpio
